import Mathlib

/-!
Verification of the SmartPool stamped slot pool (src/Pool.h).

Shallow embedding of the `Pool<T>` / `PoolHandle<T>` / `PoolRecord<T>` classes
from `src/Pool.h`.  The C++ integer types `PoolIndex`, `PoolStamp` (`uint64_t`)
and `size_t` are modelled as unbounded naturals: the source's own header
comment argues that incrementing a `uint64_t` stamp can never realistically
overflow ("there is eternity needed to overflow uint64_t"), and none of the
executions considered here come anywhere near `2^64`.  Raw storage is modelled
as a `List` of records; the null pointer stored in `mRecords` by `Clear` and by
a failed allocation is modelled as the empty list.  An object's storage is
`Option T`: `none` models never-constructed or already-destructed storage.
-/

namespace SmartPool

/-- First `EPoolStamp` enumerator from `src/Pool.h` (implicit values 0, 1, 2). -/
def PoolStamp_NotConstructed : Nat := 0

/-- Stamp `PoolStamp_Free`: slot destructed and awaiting reuse. -/
def PoolStamp_Free : Nat := 1

/-- Stamp `PoolStamp_Origin`: the first live stamp value issued by the pool. -/
def PoolStamp_Origin : Nat := 2

/-- Handle type `PoolHandle<T>`: an index plus the stamp of the object it was issued for. -/
structure PoolHandle where
  mIndex : Nat
  mStamp : Nat
deriving DecidableEq, Repr

/-- The `PoolHandle()` default constructor: `mIndex(0), mStamp(PoolStamp_Free)`,
the designated "invalid" handle. -/
def defaultHandle : PoolHandle := ⟨0, PoolStamp_Free⟩

/-- Record type `PoolRecord<T>`: a stamp together with the (possibly unconstructed) object
storage.  `mObject = none` models storage that holds no constructed `T`. -/
structure PoolRecord (T : Type) where
  mStamp : Nat
  mObject : Option T
deriving DecidableEq, Repr

/-- The record produced by `memset(..., PoolStamp_NotConstructed, ...)` in
`Pool::AllocMemory` (all bytes zero, so the stamp is `PoolStamp_NotConstructed`
and the object storage is unconstructed). -/
def blankRecord (T : Type) : PoolRecord T := ⟨PoolStamp_NotConstructed, none⟩

/-- Pool state `Pool<T>`: the data members of the C++ class.  `mFreeQueue` is the FIFO
`std::queue<PoolIndex>` with its front at the head of the list; `push` appends
at the tail. -/
structure Pool (T : Type) where
  mSpawnedCount : Nat
  mGlobalStamp : Nat
  mRecords : List (PoolRecord T)
  mCapacity : Nat
  mFreeQueue : List Nat
deriving DecidableEq, Repr

variable {T : Type}

/-- The `Pool(size_t baseSize, ...)` constructor: sets `mCapacity = baseSize`,
allocates `baseSize` records (all `memset` to `PoolStamp_NotConstructed` by
`AllocMemory`) and pushes the indices `0, ..., baseSize-1` onto the free
queue.  `mSpawnedCount` and `mGlobalStamp` keep their member initializers
(`0` and `PoolStamp_Origin`).  Allocation is assumed to succeed here. -/
def mkPool (T : Type) (baseSize : Nat) : Pool T :=
  { mSpawnedCount := 0
    mGlobalStamp := PoolStamp_Origin
    mRecords := List.replicate baseSize (blankRecord T)
    mCapacity := baseSize
    mFreeQueue := List.range baseSize }

/-- The stamp currently stored at slot `i`, or `none` when `i` is outside the
record array (reading there is undefined behaviour in the source). -/
def slotStamp (p : Pool T) (i : Nat) : Option Nat :=
  (p.mRecords[i]?).map (·.mStamp)

/-- Getter `Pool::GetSpawnedCount`. -/
def GetSpawnedCount (p : Pool T) : Nat := p.mSpawnedCount

/-- Getter `Pool::GetCapacity`. -/
def GetCapacity (p : Pool T) : Nat := p.mCapacity

/-- The exact rational value of the source's `static constexpr float GrowRate
= 1.618f;`: the IEEE-754 single-precision number nearest to 1.618 is
`13572768 / 2^23 = 424149 / 262144 ≈ 1.6180000305`. -/
def GrowRate : ℚ := 424149 / 262144

/-- Round-to-nearest, ties-to-even, of a natural number to a 24-bit
significand: the IEEE-754 single-precision rounding of a nonnegative integer
(with unbounded exponent, so no overflow; overflow would need values around
`2^128`).  Values below `2^24` are representable exactly; a larger value is
rounded to the nearest multiple of `2^(log2 n - 23)`, halfway cases to the
even multiple. -/
def rnd24 (n : Nat) : Nat :=
  if n < 2^24 then n
  else
    let s := n.log2 - 23
    let q := n / 2^s
    let r := n % 2^s
    if r < 2^(s-1) then q * 2^s
    else if 2^(s-1) < r then (q + 1) * 2^s
    else (if q % 2 = 0 then q else q + 1) * 2^s

/-- The capacity computed by the growth branch of `Pool::Spawn`:
`mCapacity = 1` when the old capacity is zero, otherwise
`static_cast<size_t>(ceil(mCapacity * GrowRate))` evaluated exactly as the
C++ does it, in IEEE-754 single precision with round-to-nearest-even:
`mCapacity` is first converted to `float` (`rnd24 c`), the product with
`GrowRate = 424149 / 2^18` is rounded again to a 24-bit significand
(`rnd24 (rnd24 c * 424149)`; the scaling by `2^18` only shifts the exponent
and does not affect rounding), and the `ceil` of the resulting
`(rnd24 (rnd24 c * 424149)) / 2^18` is the natural ceiling division
`(· + 262143) / 262144`.  (`ceil` operates on the exact `double` promotion
of the `float` product, and the final `static_cast<size_t>` truncates an
integer-valued nonnegative `double`, so both are exact.) -/
def growCapacity (c : Nat) : Nat :=
  if c = 0 then 1 else (rnd24 (rnd24 c * 424149) + 262143) / 262144

/-- The record-array migration performed by the growth branch of
`Pool::Spawn`: the new array of `newCap` records starts out `memset` to
`PoolStamp_NotConstructed` (`AllocMemory`), and every old record whose stamp
is not `PoolStamp_NotConstructed` is move-constructed into the same index of
the new array. -/
def migrate (old : List (PoolRecord T)) (newCap : Nat) : List (PoolRecord T) :=
  (List.range newCap).map fun i =>
    match old[i]? with
    | some r =>
        if r.mStamp ≠ PoolStamp_NotConstructed then r else blankRecord T
    | none => blankRecord T

/-- The whole growth branch of `Pool::Spawn` (the `mFreeQueue.empty()` case),
assuming `AllocMemory` succeeds: bump the capacity, allocate and migrate the
records, push the new indices `[oldCapacity, newCapacity)` onto the free
queue, release the old array. -/
def growPool (p : Pool T) : Pool T :=
  { mSpawnedCount := p.mSpawnedCount
    mGlobalStamp := p.mGlobalStamp
    mRecords := migrate p.mRecords (growCapacity p.mCapacity)
    mCapacity := growCapacity p.mCapacity
    mFreeQueue := p.mFreeQueue ++
      List.range' p.mCapacity (growCapacity p.mCapacity - p.mCapacity) }

/-- The tail of `Pool::Spawn` after any growth: `GetFreeIndex` pops the front
of the free queue, the record is reconstructed by placement `new` with the
fresh stamp from `MakeStamp()` (which post-increments `mGlobalStamp`), the
spawned count is incremented, and the handle `{index, rec.mStamp}` is
returned.  (The source's `queue::front` on an empty queue is undefined; the
head default `0` is never reached from `Spawn`, which grows first.) -/
def spawnAt (p : Pool T) (t : T) : Pool T × PoolHandle :=
  let index := p.mFreeQueue.headD 0
  let stamp := p.mGlobalStamp
  ({ mSpawnedCount := p.mSpawnedCount + 1
     mGlobalStamp := stamp + 1
     mRecords := p.mRecords.set index ⟨stamp, some t⟩
     mCapacity := p.mCapacity
     mFreeQueue := p.mFreeQueue.tail }, ⟨index, stamp⟩)

/-- Method `Pool::Spawn` in the case where every allocation succeeds (the only
fallible step is `AllocMemory` inside the growth branch). -/
def SpawnOk (p : Pool T) (t : T) : Pool T × PoolHandle :=
  spawnAt (if p.mFreeQueue.isEmpty then growPool p else p) t

/-- Method `Pool::Spawn` with an explicit allocation outcome for the growth branch.
When the free queue is empty and `MemoryAlloc` returns null, `AllocMemory`
throws `std::bad_alloc` after `mCapacity` has already been bumped and
`mRecords` has already been overwritten with the null result; the exception
propagates out of `Spawn` with the pool in that state (`.error`). -/
def Spawn (p : Pool T) (t : T) (allocOk : Bool) :
    Except (Pool T) (Pool T × PoolHandle) :=
  if p.mFreeQueue.isEmpty ∧ allocOk = false then
    .error { p with mCapacity := growCapacity p.mCapacity, mRecords := [] }
  else
    .ok (SpawnOk p t)

/-- Method `Pool::Return`: reads the record at `handle.mIndex` (the source `assert`s
`handle.mIndex < mCapacity`; an out-of-range index is undefined behaviour and
modelled as a no-op).  If the slot's stamp is not `PoolStamp_Free`, the stamp
is set to `PoolStamp_Free`, the object is destructed, the spawned count is
decremented and the index is pushed onto the free queue.  Note that the source
compares the slot's stamp only against `PoolStamp_Free` — it never compares it
with `handle.mStamp`. -/
def Return (p : Pool T) (h : PoolHandle) : Pool T :=
  match p.mRecords[h.mIndex]? with
  | none => p
  | some r =>
      if r.mStamp ≠ PoolStamp_Free then
        { p with
          mRecords := p.mRecords.set h.mIndex ⟨PoolStamp_Free, none⟩
          mSpawnedCount := p.mSpawnedCount - 1
          mFreeQueue := p.mFreeQueue ++ [h.mIndex] }
      else p

/-- Method `Pool::Clear`: destructs every live object, frees the record array
(`mRecords = nullptr`), empties the free queue and resets capacity, global
stamp and spawned count. -/
def Clear (_p : Pool T) : Pool T :=
  { mSpawnedCount := 0
    mGlobalStamp := PoolStamp_Origin
    mRecords := []
    mCapacity := 0
    mFreeQueue := [] }

/-- Method `Pool::IsValid`: `assert(handle.mIndex < mCapacity)` followed by
`handle.mStamp == mRecords[handle.mIndex].mStamp`.  The result is `none` when
the index is out of range: in that case the source fails its assertion (debug)
or reads out of bounds (release), so no boolean is returned. -/
def IsValid (p : Pool T) (h : PoolHandle) : Option Bool :=
  if h.mIndex < p.mCapacity then
    some (h.mStamp == ((p.mRecords[h.mIndex]?).getD (blankRecord T)).mStamp)
  else
    none

/-- Method `Pool::At`: returns `mRecords[handle.mIndex].mObject` (the source
`assert`s `handle.mIndex < mCapacity`; the stored object is `none` when the
storage at that slot holds no constructed object). -/
def At (p : Pool T) (h : PoolHandle) : Option T :=
  ((p.mRecords[h.mIndex]?).getD (blankRecord T)).mObject

/-- The records visited by a range-based `for` over the pool:
`Pool::begin()` returns `mRecords` and `Pool::end()` returns
`mRecords + mCapacity - 1`, so the loop visits the records at indices
`[0, mCapacity - 1)`. -/
def poolIter (p : Pool T) : List (PoolRecord T) :=
  p.mRecords.take (p.mCapacity - 1)

/-- Size of `PoolStamp` (`sizeof(PoolStamp)`) on the 64-bit targets the source is written for. -/
def stampSize : Nat := 8

/-- Size of a record (`sizeof(PoolRecord<T>)`) for an element type of size `objSize` whose
alignment does not exceed 8, so that the record adds no padding: the stamp
followed by the object storage. -/
def recordSize (objSize : Nat) : Nat := stampSize + objSize

/-- The address `&mRecords[i].mObject` when the record array starts at
address `base`. -/
def objAddr (base objSize i : Nat) : Nat :=
  base + i * recordSize objSize + stampSize

/-- Method `Pool::HandleByPointer` over the address model: addresses are naturals,
the record array starts at `base`.  The source rejects (returns a
default-constructed handle for) any `ptr` with
`ptr < &mRecords[0].mObject || ptr >= &mRecords[mCapacity - 1].mObject`;
otherwise it subtracts `sizeof(PoolStamp)` to reach the record, divides the
distance from the array base by `sizeof(PoolRecord<T>)` to obtain the index
and returns `{index, record->mStamp}`. -/
def HandleByPointer (p : Pool T) (base objSize ptr : Nat) : PoolHandle :=
  if ptr < objAddr base objSize 0 ∨ objAddr base objSize (p.mCapacity - 1) ≤ ptr then
    defaultHandle
  else
    let record := ptr - stampSize
    let index := (record - base) / recordSize objSize
    ⟨index, ((p.mRecords[index]?).getD (blankRecord T)).mStamp⟩

/-- One client call: `Spawn` with a given constructor argument (allocation
assumed to succeed) or `Return` with a given handle. -/
inductive Op (T : Type) where
  | spawn (t : T)
  | ret (h : PoolHandle)
deriving DecidableEq, Repr

/-- Execute one call against the pool, discarding `Spawn`'s result handle. -/
def step (p : Pool T) : Op T → Pool T
  | .spawn t => (SpawnOk p t).1
  | .ret h => Return p h

/-- Execute a sequence of calls. -/
def run (p : Pool T) (ops : List (Op T)) : Pool T :=
  ops.foldl step p

/-- Number of `Spawn` calls in a call sequence. -/
def countSpawns : List (Op T) → Nat
  | [] => 0
  | .spawn _ :: rest => countSpawns rest + 1
  | .ret _ :: rest => countSpawns rest

/-- Number of successful, non-stale `Return` calls in a call sequence run
from `p`: those `Return`s whose handle's stamp equals the slot's stamp at the
moment of the call and whose slot is not already free (so the call actually
destructs the handle's own object). -/
def countNonStaleReturns (p : Pool T) : List (Op T) → Nat
  | [] => 0
  | .spawn t :: rest => countNonStaleReturns (SpawnOk p t).1 rest
  | .ret h :: rest =>
      (if slotStamp p h.mIndex = some h.mStamp ∧ h.mStamp ≠ PoolStamp_Free
       then 1 else 0) + countNonStaleReturns (Return p h) rest


/-!
Well-formedness of reachable pool states, and preservation lemmas.
-/

/-- Well-formedness of a pool state.  Holds for every state reachable through
the public interface with successful allocations: the record array has
`mCapacity` entries, the global stamp is at least `PoolStamp_Origin`, every
free-queue index is in range, every stored stamp is a sentinel or a stamp
already issued (hence below `mGlobalStamp`), and never-constructed slots hold
no object. -/
abbrev WF (p : Pool T) : Prop :=
  p.mRecords.length = p.mCapacity ∧
  PoolStamp_Origin ≤ p.mGlobalStamp ∧
  (∀ i ∈ p.mFreeQueue, i < p.mCapacity) ∧
  (∀ r ∈ p.mRecords, r.mStamp = PoolStamp_NotConstructed ∨ r.mStamp = PoolStamp_Free ∨
      r.mStamp < p.mGlobalStamp) ∧
  (∀ r ∈ p.mRecords, r.mStamp = PoolStamp_NotConstructed → r.mObject = none)

/-- A handle `h` is permanently avoided by pool `p`: its index is in range,
its slot's stamp differs from `h.mStamp`, its stamp is not the `Free`
sentinel, and every stamp the pool will ever issue again is strictly larger
than `h.mStamp`. -/
def Avoids (p : Pool T) (h : PoolHandle) : Prop :=
  h.mIndex < p.mCapacity ∧
  slotStamp p h.mIndex ≠ some h.mStamp ∧
  h.mStamp ≠ PoolStamp_Free ∧
  h.mStamp < p.mGlobalStamp

lemma WF_mkPool (T : Type) (n : Nat) : WF (mkPool T n) := by
  refine ⟨by simp [mkPool], by simp [mkPool], ?_, ?_, ?_⟩
  · intro i hi
    simpa [mkPool] using List.mem_range.mp hi
  · intro r hr
    rw [List.eq_of_mem_replicate hr]
    exact Or.inl rfl
  · intro r hr
    rw [List.eq_of_mem_replicate hr]
    intro _; rfl

lemma rnd24_ge (n : Nat) : n - n / 16777216 ≤ rnd24 n := by
  unfold rnd24
  split
  · omega
  · rename_i hbig
    push_neg at hbig
    have hn0 : n ≠ 0 := by
      intro h
      rw [h] at hbig
      norm_num at hbig
    have hlogle : 2 ^ n.log2 ≤ n := Nat.log2_self_le hn0
    have hloglt : n < 2 ^ (n.log2 + 1) := Nat.lt_log2_self
    have hlog24 : 24 ≤ n.log2 := by
      by_contra hcon
      push_neg at hcon
      have : 2 ^ (n.log2 + 1) ≤ 2 ^ 24 := Nat.pow_le_pow_right (by norm_num) (by omega)
      omega
    set s := n.log2 - 23 with hs
    have hs1 : 1 ≤ s := by omega
    have hT : (2:Nat)^s = 2 * 2^(s-1) := by
      have h := pow_succ 2 (s-1)
      rw [show s - 1 + 1 = s by omega] at h
      omega
    have hH : 2^(s-1) * 16777216 ≤ n := by
      have h1 : (2:Nat)^(s-1) * 16777216 = 2^(s-1+24) := by
        rw [pow_add]
        norm_num
      rw [h1]
      have h2 : s - 1 + 24 = n.log2 := by omega
      rw [h2]
      exact hlogle
    have hdm : n / 2^s * 2^s + n % 2^s = n := Nat.div_add_mod' n (2^s)
    have hmod : n % 2^s < 2^s := Nat.mod_lt _ (by positivity)
    have hmul : (n / 2^s + 1) * 2^s = n / 2^s * 2^s + 2^s := by ring
    show n - n / 16777216 ≤
      if n % 2^s < 2^(s-1) then n / 2^s * 2^s
      else if 2^(s-1) < n % 2^s then (n / 2^s + 1) * 2^s
      else (if n / 2^s % 2 = 0 then n / 2^s else n / 2^s + 1) * 2^s
    split
    · omega
    · split
      · rw [hmul]
        omega
      · have heqr : n % 2^s = 2^(s-1) := by omega
        split
        · omega
        · rw [hmul]
          omega

lemma growCapacity_lt (c : Nat) : c < growCapacity c := by
  unfold growCapacity
  split
  · omega
  · rename_i hc
    have h1 := rnd24_ge c
    have h2 := rnd24_ge (rnd24 c * 424149)
    have hcc : 1 ≤ c := Nat.one_le_iff_ne_zero.mpr hc
    omega

lemma migrate_length (old : List (PoolRecord T)) (newCap : Nat) :
    (migrate old newCap).length = newCap := by
  simp [migrate]

lemma migrate_getElem?_lo (old : List (PoolRecord T)) (newCap i : Nat)
    (hb : ∀ r ∈ old, r.mStamp = PoolStamp_NotConstructed → r.mObject = none)
    (hi : i < old.length) (hin : i < newCap) :
    (migrate old newCap)[i]? = old[i]? := by
  unfold migrate
  rw [List.getElem?_map, List.getElem?_range hin]
  simp only [Option.map_some']
  rcases hr : old[i]? with _ | r
  · rw [List.getElem?_eq_none_iff] at hr
    omega
  · show some (if r.mStamp ≠ PoolStamp_NotConstructed then r else blankRecord T) = some r
    split
    · rfl
    · rename_i hstamp
      have hs : r.mStamp = PoolStamp_NotConstructed := not_ne_iff.mp hstamp
      have hobj := hb r (List.mem_iff_getElem?.mpr ⟨i, hr⟩) hs
      cases r with
      | mk s o =>
        simp only at hs hobj
        rw [hs, hobj]
        rfl

lemma migrate_getElem?_hi (old : List (PoolRecord T)) (newCap i : Nat)
    (hi : old.length ≤ i) (hin : i < newCap) :
    (migrate old newCap)[i]? = some (blankRecord T) := by
  unfold migrate
  rw [List.getElem?_map, List.getElem?_range hin]
  simp only [Option.map_some']
  rw [List.getElem?_eq_none hi]

lemma head_mem_of_ne_nil (l : List Nat) (h : l ≠ []) : l.headD 0 ∈ l := by
  cases l with
  | nil => exact absurd rfl h
  | cons a l => exact List.mem_cons_self a l


lemma mem_migrate (old : List (PoolRecord T)) (newCap : Nat) (r : PoolRecord T)
    (hb : ∀ r' ∈ old, r'.mStamp = PoolStamp_NotConstructed → r'.mObject = none)
    (hr : r ∈ migrate old newCap) : r ∈ old ∨ r = blankRecord T := by
  obtain ⟨n, hn⟩ := List.mem_iff_getElem?.mp hr
  have hnlt : n < newCap := by
    have hlt := (List.getElem?_eq_some.mp hn).1
    rwa [migrate_length] at hlt
  by_cases hcase : n < old.length
  · rw [migrate_getElem?_lo old newCap n hb hcase hnlt] at hn
    exact Or.inl (List.mem_iff_getElem?.mpr ⟨n, hn⟩)
  · rw [migrate_getElem?_hi old newCap n (by omega) hnlt] at hn
    exact Or.inr (Option.some_injective _ hn).symm

lemma growPool_records_lo (p : Pool T) (hwf : WF p) (i : Nat) (hi : i < p.mCapacity) :
    (growPool p).mRecords[i]? = p.mRecords[i]? := by
  obtain ⟨hlen, _, _, _, hblank⟩ := hwf
  have hlt := growCapacity_lt p.mCapacity
  exact migrate_getElem?_lo _ _ _ hblank (by omega) (by omega)

lemma WF_growPool (p : Pool T) (hwf : WF p) : WF (growPool p) := by
  obtain ⟨hlen, horig, hfreeq, hstamp, hblank⟩ := hwf
  have hlt := growCapacity_lt p.mCapacity
  refine ⟨migrate_length _ _, horig, ?_, ?_, ?_⟩
  · intro i hi
    rcases List.mem_append.mp hi with hi | hi
    · exact lt_trans (hfreeq i hi) hlt
    · have h2 := (List.mem_range'_1.mp hi).2
      have h3 : (growPool p).mCapacity = growCapacity p.mCapacity := rfl
      omega
  · intro r hr
    rcases mem_migrate _ _ _ hblank hr with hmem | heq
    · exact hstamp r hmem
    · exact Or.inl (by rw [heq]; rfl)
  · intro r hr
    rcases mem_migrate _ _ _ hblank hr with hmem | heq
    · exact hblank r hmem
    · intro _; rw [heq]; rfl

lemma growPool_queue_ne_nil (p : Pool T) (hq : p.mFreeQueue = []) :
    (growPool p).mFreeQueue ≠ [] := by
  have hlt := growCapacity_lt p.mCapacity
  simp only [growPool, hq, List.nil_append]
  intro hcon
  have := congrArg List.length hcon
  simp at this
  omega

lemma WF_spawnAt (p : Pool T) (t : T) (hwf : WF p) : WF (spawnAt p t).1 := by
  obtain ⟨hlen, horig, hfreeq, hstamp, hblank⟩ := hwf
  refine ⟨by simp [spawnAt, hlen], by simp only [spawnAt]; omega, ?_, ?_, ?_⟩
  · intro i hi
    simp only [spawnAt] at hi
    exact hfreeq i (List.mem_of_mem_tail hi)
  · intro r hr
    simp only [spawnAt] at hr ⊢
    rcases List.mem_or_eq_of_mem_set hr with hmem | heq
    · rcases hstamp r hmem with hcase | hcase | hcase
      · exact Or.inl hcase
      · exact Or.inr (Or.inl hcase)
      · exact Or.inr (Or.inr (by omega))
    · rw [heq]
      exact Or.inr (Or.inr (by simp))
  · intro r hr
    simp only [spawnAt] at hr
    rcases List.mem_or_eq_of_mem_set hr with hmem | heq
    · exact hblank r hmem
    · rw [heq]
      intro hcon
      simp only [PoolStamp_NotConstructed] at hcon
      simp only [PoolStamp_Origin] at horig
      exact absurd hcon (by omega)

lemma WF_SpawnOk (p : Pool T) (t : T) (hwf : WF p) : WF (SpawnOk p t).1 := by
  unfold SpawnOk
  split
  · exact WF_spawnAt _ _ (WF_growPool _ hwf)
  · exact WF_spawnAt _ _ hwf

lemma Return_eq_of_none (p : Pool T) (h : PoolHandle)
    (hr : p.mRecords[h.mIndex]? = none) : Return p h = p := by
  unfold Return
  rw [hr]

lemma Return_eq_of_free (p : Pool T) (h : PoolHandle) (r : PoolRecord T)
    (hr : p.mRecords[h.mIndex]? = some r) (hst : r.mStamp = PoolStamp_Free) :
    Return p h = p := by
  unfold Return
  rw [hr]
  simp [hst]

lemma Return_eq_of_live (p : Pool T) (h : PoolHandle) (r : PoolRecord T)
    (hr : p.mRecords[h.mIndex]? = some r) (hst : r.mStamp ≠ PoolStamp_Free) :
    Return p h =
      { p with
        mRecords := p.mRecords.set h.mIndex ⟨PoolStamp_Free, none⟩
        mSpawnedCount := p.mSpawnedCount - 1
        mFreeQueue := p.mFreeQueue ++ [h.mIndex] } := by
  unfold Return
  rw [hr]
  simp [hst]

lemma WF_Return (p : Pool T) (h : PoolHandle) (hwf : WF p) : WF (Return p h) := by
  rcases hr : p.mRecords[h.mIndex]? with _ | r
  · rw [Return_eq_of_none p h hr]
    exact hwf
  · by_cases hst : r.mStamp = PoolStamp_Free
    · rw [Return_eq_of_free p h r hr hst]
      exact hwf
    · rw [Return_eq_of_live p h r hr hst]
      obtain ⟨hlen, horig, hfreeq, hstamp, hblank⟩ := hwf
      have hidx : h.mIndex < p.mCapacity := by
        have := (List.getElem?_eq_some.mp hr).1
        omega
      refine ⟨by simp [hlen], horig, ?_, ?_, ?_⟩
      · intro i hi
        rcases List.mem_append.mp hi with hi | hi
        · exact hfreeq i hi
        · rw [List.mem_singleton.mp hi]
          exact hidx
      · intro r' hr'
        rcases List.mem_or_eq_of_mem_set hr' with hmem | heq
        · exact hstamp r' hmem
        · rw [heq]
          exact Or.inr (Or.inl rfl)
      · intro r' hr'
        rcases List.mem_or_eq_of_mem_set hr' with hmem | heq
        · exact hblank r' hmem
        · rw [heq]
          intro _
          rfl

lemma WF_step (p : Pool T) (op : Op T) (hwf : WF p) : WF (step p op) := by
  cases op with
  | spawn t => exact WF_SpawnOk p t hwf
  | ret h => exact WF_Return p h hwf

lemma WF_run (p : Pool T) (ops : List (Op T)) (hwf : WF p) : WF (run p ops) := by
  induction ops generalizing p with
  | nil => exact hwf
  | cons op rest ih => exact ih _ (WF_step p op hwf)

lemma isValid_iff (p : Pool T) (h : PoolHandle)
    (hlen : p.mRecords.length = p.mCapacity) :
    IsValid p h = some true ↔
      h.mIndex < p.mCapacity ∧ slotStamp p h.mIndex = some h.mStamp := by
  unfold IsValid slotStamp
  split
  · rename_i hidx
    rcases hr : p.mRecords[h.mIndex]? with _ | r
    · rw [List.getElem?_eq_none_iff] at hr
      omega
    · simp only [hr, Option.getD_some, Option.some_inj, Option.map_some']
      rw [beq_iff_eq]
      constructor
      · intro hbeq
        exact ⟨hidx, by rw [hbeq]⟩
      · intro ⟨_, hsome⟩
        exact hsome.symm
  · rename_i hidx
    constructor
    · intro hcon
      exact absurd hcon (by simp)
    · intro ⟨hlt, _⟩
      exact absurd hlt hidx

lemma isValid_eq_some_false (p : Pool T) (h : PoolHandle)
    (hlen : p.mRecords.length = p.mCapacity) (hidx : h.mIndex < p.mCapacity)
    (hne : slotStamp p h.mIndex ≠ some h.mStamp) :
    IsValid p h = some false := by
  unfold IsValid
  rw [if_pos hidx]
  rcases hr : p.mRecords[h.mIndex]? with _ | r
  · rw [List.getElem?_eq_none_iff] at hr
    omega
  · unfold slotStamp at hne
    rw [hr] at hne
    simp only [Option.map_some'] at hne
    simp only [Option.getD_some, Option.some_inj]
    rw [beq_eq_false_iff_ne]
    intro hcon
    exact hne (by rw [hcon])

/-!
Facts used for the permanence of handle invalidation (claim C6): once a
handle's slot can no longer carry the handle's stamp, no later `Spawn` or
`Return` can make it carry that stamp again.
-/

lemma avoids_isValid (p : Pool T) (h : PoolHandle) (hwf : WF p)
    (hav : Avoids p h) : IsValid p h = some false := by
  obtain ⟨hlen, _, _, _, _⟩ := hwf
  obtain ⟨hidx, hne, _, _⟩ := hav
  exact isValid_eq_some_false p h hlen hidx hne

lemma avoids_spawnAt (p : Pool T) (h : PoolHandle) (t : T)
    (hav : Avoids p h) : Avoids (spawnAt p t).1 h := by
  obtain ⟨hidx, hne, hnf, hlt⟩ := hav
  refine ⟨hidx, ?_, hnf, by simp only [spawnAt]; omega⟩
  show ((p.mRecords.set (p.mFreeQueue.headD 0)
      ⟨p.mGlobalStamp, some t⟩)[h.mIndex]?).map (·.mStamp) ≠ some h.mStamp
  rw [List.getElem?_set]
  split
  · split
    · simp only [Option.map_some']
      intro hcon
      have : p.mGlobalStamp = h.mStamp := by
        have := Option.some_injective _ hcon
        simpa using this
      omega
    · simp
  · exact hne

lemma avoids_growPool (p : Pool T) (h : PoolHandle) (hwf : WF p)
    (hav : Avoids p h) : Avoids (growPool p) h := by
  obtain ⟨hidx, hne, hnf, hlt⟩ := hav
  have hgrow := growCapacity_lt p.mCapacity
  refine ⟨by show h.mIndex < growCapacity p.mCapacity; omega, ?_, hnf, hlt⟩
  show ((growPool p).mRecords[h.mIndex]?).map (·.mStamp) ≠ some h.mStamp
  rw [growPool_records_lo p hwf h.mIndex hidx]
  exact hne

lemma avoids_SpawnOk (p : Pool T) (h : PoolHandle) (t : T) (hwf : WF p)
    (hav : Avoids p h) : Avoids (SpawnOk p t).1 h := by
  unfold SpawnOk
  split
  · exact avoids_spawnAt _ _ _ (avoids_growPool _ _ hwf hav)
  · exact avoids_spawnAt _ _ _ hav

lemma avoids_Return (p : Pool T) (h h' : PoolHandle)
    (hav : Avoids p h) : Avoids (Return p h') h := by
  rcases hr : p.mRecords[h'.mIndex]? with _ | r
  · rw [Return_eq_of_none p h' hr]
    exact hav
  · by_cases hst : r.mStamp = PoolStamp_Free
    · rw [Return_eq_of_free p h' r hr hst]
      exact hav
    · rw [Return_eq_of_live p h' r hr hst]
      obtain ⟨hidx, hne, hnf, hlt⟩ := hav
      refine ⟨hidx, ?_, hnf, hlt⟩
      show ((p.mRecords.set h'.mIndex
          ⟨PoolStamp_Free, none⟩)[h.mIndex]?).map (·.mStamp) ≠ some h.mStamp
      rw [List.getElem?_set]
      split
      · split
        · simp only [Option.map_some']
          intro hcon
          exact hnf (by simpa using (Option.some_injective _ hcon).symm)
        · simp
      · exact hne

lemma avoids_step (p : Pool T) (h : PoolHandle) (op : Op T) (hwf : WF p)
    (hav : Avoids p h) : Avoids (step p op) h := by
  cases op with
  | spawn t => exact avoids_SpawnOk p h t hwf hav
  | ret h' => exact avoids_Return p h h' hav

lemma avoids_run (p : Pool T) (h : PoolHandle) (ops : List (Op T))
    (hwf : WF p) (hav : Avoids p h) : Avoids (run p ops) h := by
  induction ops generalizing p with
  | nil => exact hav
  | cons op rest ih => exact ih _ (WF_step p op hwf) (avoids_step p h op hwf hav)

lemma avoids_after_live_Return (p : Pool T) (h : PoolHandle) (hwf : WF p)
    (hmatch : slotStamp p h.mIndex = some h.mStamp)
    (hnf : h.mStamp ≠ PoolStamp_Free) : Avoids (Return p h) h := by
  obtain ⟨hlen, horig, _, hstamp, _⟩ := hwf
  unfold slotStamp at hmatch
  rcases hr : p.mRecords[h.mIndex]? with _ | r
  · rw [hr] at hmatch
    exact absurd hmatch (by simp)
  · rw [hr] at hmatch
    simp only [Option.map_some', Option.some_inj] at hmatch
    have hst : r.mStamp ≠ PoolStamp_Free := by rw [hmatch]; exact hnf
    have hidx : h.mIndex < p.mCapacity := by
      have := (List.getElem?_eq_some.mp hr).1
      omega
    have hmem : r ∈ p.mRecords := List.mem_iff_getElem?.mpr ⟨h.mIndex, hr⟩
    have hlt : h.mStamp < p.mGlobalStamp := by
      rcases hstamp r hmem with hcase | hcase | hcase
      · rw [← hmatch, hcase]
        simp only [PoolStamp_NotConstructed, PoolStamp_Origin] at *
        omega
      · exact absurd hcase hst
      · omega
    rw [Return_eq_of_live p h r hr hst]
    refine ⟨hidx, ?_, hnf, hlt⟩
    show ((p.mRecords.set h.mIndex
        ⟨PoolStamp_Free, none⟩)[h.mIndex]?).map (·.mStamp) ≠ some h.mStamp
    rw [List.getElem?_set]
    rw [if_pos rfl, if_pos (by omega)]
    simp only [Option.map_some']
    intro hcon
    exact hnf (by simpa using (Option.some_injective _ hcon).symm)

lemma isValid_spawnAt (p : Pool T) (t : T) (hwf : WF p)
    (hne : p.mFreeQueue ≠ []) :
    IsValid (spawnAt p t).1 (spawnAt p t).2 = some true := by
  obtain ⟨hlen, _, hfreeq, _, _⟩ := hwf
  have hidx : p.mFreeQueue.headD 0 < p.mCapacity :=
    hfreeq _ (head_mem_of_ne_nil _ hne)
  show IsValid
      ⟨p.mSpawnedCount + 1, p.mGlobalStamp + 1,
        p.mRecords.set (p.mFreeQueue.headD 0) ⟨p.mGlobalStamp, some t⟩,
        p.mCapacity, p.mFreeQueue.tail⟩
      ⟨p.mFreeQueue.headD 0, p.mGlobalStamp⟩ = some true
  unfold IsValid
  rw [if_pos hidx]
  rw [List.getElem?_set]
  rw [if_pos rfl, if_pos (by omega)]
  simp

lemma isValid_SpawnOk (p : Pool T) (t : T) (hwf : WF p) :
    IsValid (SpawnOk p t).1 (SpawnOk p t).2 = some true := by
  unfold SpawnOk
  split
  · rename_i hq
    exact isValid_spawnAt _ _ (WF_growPool _ hwf)
      (growPool_queue_ne_nil _ (List.isEmpty_iff.mp hq))
  · rename_i hq
    exact isValid_spawnAt _ _ hwf
      (by intro hcon; exact hq (List.isEmpty_iff.mpr hcon))

/-!
The growth-capacity formula, related to the mathematical ceiling, and
element preservation across a growing `Spawn`.
-/

lemma ceil_mul_growRate (c : Nat) :
    ⌈(c : ℚ) * GrowRate⌉₊ = (c * 424149 + 262143) / 262144 := by
  have hrw : (c : ℚ) * GrowRate = ((c * 424149 : ℕ) : ℚ) / ((262144 : ℕ) : ℚ) := by
    unfold GrowRate
    push_cast
    ring
  rw [hrw]
  have hbq : (0 : ℚ) < ((262144 : ℕ) : ℚ) := by norm_num
  apply le_antisymm
  · rw [Nat.ceil_le, div_le_iff₀ hbq]
    have hnat : c * 424149 ≤ ((c * 424149 + 262143) / 262144) * 262144 := by omega
    exact_mod_cast hnat
  · rcases Nat.eq_zero_or_pos ((c * 424149 + 262143) / 262144) with hq | hq
    · omega
    · have h1 : (c * 424149 + 262143) / 262144 - 1 <
          ⌈((c * 424149 : ℕ) : ℚ) / ((262144 : ℕ) : ℚ)⌉₊ := by
        rw [Nat.lt_ceil, lt_div_iff₀ hbq]
        have hnat : ((c * 424149 + 262143) / 262144 - 1) * 262144 < c * 424149 := by
          omega
        exact_mod_cast hnat
      omega

lemma SpawnOk_growth_eq (p : Pool T) (t : T) (hempty : p.mFreeQueue = []) :
    SpawnOk p t = spawnAt (growPool p) t := by
  unfold SpawnOk
  rw [if_pos (List.isEmpty_iff.mpr hempty)]

lemma growPool_queue_of_empty (p : Pool T) (hempty : p.mFreeQueue = []) :
    (growPool p).mFreeQueue =
      p.mCapacity ::
        List.range' (p.mCapacity + 1) (growCapacity p.mCapacity - p.mCapacity - 1) := by
  show p.mFreeQueue ++
      List.range' p.mCapacity (growCapacity p.mCapacity - p.mCapacity) = _
  rw [hempty, List.nil_append]
  have hlt := growCapacity_lt p.mCapacity
  have hk : growCapacity p.mCapacity - p.mCapacity =
      (growCapacity p.mCapacity - p.mCapacity - 1) + 1 := by omega
  conv_lhs => rw [hk]
  rw [List.range'_succ]

lemma SpawnOk_growth_records_lo (p : Pool T) (t : T) (hwf : WF p)
    (hempty : p.mFreeQueue = []) (i : Nat) (hi : i < p.mCapacity) :
    (SpawnOk p t).1.mRecords[i]? = p.mRecords[i]? := by
  rw [SpawnOk_growth_eq p t hempty]
  show ((growPool p).mRecords.set ((growPool p).mFreeQueue.headD 0)
      ⟨(growPool p).mGlobalStamp, some t⟩)[i]? = p.mRecords[i]?
  have hhead : (growPool p).mFreeQueue.headD 0 = p.mCapacity := by
    rw [growPool_queue_of_empty p hempty]
    rfl
  rw [hhead, List.getElem?_set_ne (by omega)]
  exact growPool_records_lo p hwf i hi

lemma spawnAt_capacity (p : Pool T) (t : T) :
    (spawnAt p t).1.mCapacity = p.mCapacity := rfl

lemma growPool_capacity (p : Pool T) :
    (growPool p).mCapacity = growCapacity p.mCapacity := rfl

/-!
Claim theorems.
-/

/-- C1: the claim states that a `Return` whose handle generation differs from
the slot's current generation is a no-op.  The code instead only checks that
the slot is not already `Free`, so in Scenario B (`Spawn` giving `h = (0,2)`,
`Return h`, `Spawn` giving `h2 = (0,3)` reusing index 0, then `Return h` again)
the second, stale `Return h` destructs `h2`'s live occupant: afterwards
`IsValid h2` is `false`, slot 0 is `Free` and the spawned count dropped to 0.
This theorem evaluates the code on that failing input. -/
theorem C1_stale_return_destructs_reused_occupant :
    IsValid (run (mkPool Nat 1) [.spawn 10, .ret ⟨0, 2⟩, .spawn 20]) ⟨0, 3⟩ =
      some true ∧
    IsValid (run (mkPool Nat 1) [.spawn 10, .ret ⟨0, 2⟩, .spawn 20, .ret ⟨0, 2⟩])
      ⟨0, 3⟩ = some false ∧
    slotStamp (run (mkPool Nat 1) [.spawn 10, .ret ⟨0, 2⟩, .spawn 20, .ret ⟨0, 2⟩])
      0 = some PoolStamp_Free ∧
    GetSpawnedCount
      (run (mkPool Nat 1) [.spawn 10, .ret ⟨0, 2⟩, .spawn 20, .ret ⟨0, 2⟩]) = 0 := by
  decide

/-- C2: the claim states that iterating the pool visits exactly `capacity`
slots.  The code's `end()` is `mRecords + mCapacity - 1`, so a range-based
`for` visits only `capacity - 1` slots and always skips the last one: a pool
of capacity 1 yields an empty iteration, and one of capacity 3 yields 2
records. -/
theorem C2_iteration_visits_capacity_minus_one_slots :
    GetCapacity (mkPool Nat 1) = 1 ∧
    poolIter (mkPool Nat 1) = [] ∧
    GetCapacity (mkPool Nat 3) = 3 ∧
    (poolIter (mkPool Nat 3)).length = 2 := by
  decide

/-- C3 (counterexample): the claim states that when allocation fails during
growth the pool is left unchanged.  On a full capacity-1 pool, a growing
`Spawn` whose allocation fails propagates the failure but leaves the pool
with `mCapacity = 2` and a null record array, while before the call the pool
had `mCapacity = 1` and one live record — the pool is not unchanged. -/
theorem C3_counterexample_failed_growth_changes_pool :
    Spawn ((SpawnOk (mkPool Nat 1) 10).1) 20 false =
      .error ⟨1, 3, [], 2, []⟩ ∧
    ((SpawnOk (mkPool Nat 1) 10).1).mCapacity = 1 ∧
    ((SpawnOk (mkPool Nat 1) 10).1).mRecords = [⟨2, some 10⟩] :=
  ⟨rfl, rfl, rfl⟩

/-- C3 (amended): when the free queue is empty and the growth allocation
fails, the `OutOfMemory` failure propagates to the caller of `Spawn`; the
spawned count, generation counter and free list are unchanged, but growth is
not atomic: the capacity has already been bumped to the strictly larger grown
value and the record pointer is null. -/
theorem C3_amended_alloc_failure_leaves_partially_grown_pool (p : Pool T)
    (t : T) (hempty : p.mFreeQueue = []) :
    Spawn p t false =
      .error
        { mSpawnedCount := p.mSpawnedCount
          mGlobalStamp := p.mGlobalStamp
          mRecords := []
          mCapacity := growCapacity p.mCapacity
          mFreeQueue := p.mFreeQueue } ∧
    p.mCapacity < growCapacity p.mCapacity := by
  constructor
  · unfold Spawn
    rw [if_pos ⟨List.isEmpty_iff.mpr hempty, rfl⟩]
  · exact growCapacity_lt p.mCapacity

/-- C3 (witness): the amended theorem applied to the concrete full
capacity-1 pool. -/
theorem C3_amended_witness :
    ((SpawnOk (mkPool Nat 1) 10).1).mFreeQueue = [] ∧
    (Spawn ((SpawnOk (mkPool Nat 1) 10).1) 20 false =
      .error
        { mSpawnedCount := ((SpawnOk (mkPool Nat 1) 10).1).mSpawnedCount
          mGlobalStamp := ((SpawnOk (mkPool Nat 1) 10).1).mGlobalStamp
          mRecords := []
          mCapacity := growCapacity ((SpawnOk (mkPool Nat 1) 10).1).mCapacity
          mFreeQueue := ((SpawnOk (mkPool Nat 1) 10).1).mFreeQueue } ∧
      ((SpawnOk (mkPool Nat 1) 10).1).mCapacity <
        growCapacity ((SpawnOk (mkPool Nat 1) 10).1).mCapacity) :=
  ⟨rfl, C3_amended_alloc_failure_leaves_partially_grown_pool _ 20 rfl⟩

/-- C4: the claim states that `HandleByPointer` accepts a reference to any
slot in `[0, capacity)`, including the last one.  The code's bounds check
rejects any pointer `>= &mRecords[mCapacity - 1].mObject`, which is exactly
the address of the last slot's element.  On a capacity-2 pool with both slots
live (generations 2 and 3, record base address 0, element size 8): the
element address of slot 0 yields the correct handle `(0, 2)`, but the element
address of slot 1 — a live, in-bounds element — yields the default invalid
handle instead of `(1, 3)`. -/
theorem C4_handleByPointer_rejects_last_slot :
    HandleByPointer (run (mkPool Nat 2) [.spawn 10, .spawn 20]) 0 8
      (objAddr 0 8 0) = ⟨0, 2⟩ ∧
    slotStamp (run (mkPool Nat 2) [.spawn 10, .spawn 20]) 1 = some 3 ∧
    HandleByPointer (run (mkPool Nat 2) [.spawn 10, .spawn 20]) 0 8
      (objAddr 0 8 1) = defaultHandle := by
  decide

set_option maxRecDepth 4000 in
/-- C5 (counterexample): the claim's capacity formula
`newCapacity = max(1, ceil(oldCapacity * growthFactor))` reads the growth
arithmetic as exact.  The code computes `ceil(mCapacity * GrowRate)` in
single-precision floats, and the two float roundings can land below the
exact product: on a well-formed capacity-500 pool with an empty free queue,
a growing `Spawn` makes the capacity `ceil(fl(fl(500) * 1.618f)) = 809`
(the float product `500 * 1.618f` rounds down to exactly `809.0`), while
the exact formula gives `max 1 ⌈500 * GrowRate⌉ = 810`. -/
theorem C5_counterexample_float_capacity_at_500 :
    WF (Pool.mk 0 PoolStamp_Origin (List.replicate 500 (blankRecord Nat)) 500 []) ∧
    (SpawnOk (Pool.mk 0 PoolStamp_Origin (List.replicate 500 (blankRecord Nat))
      500 []) 7).1.mCapacity = 809 ∧
    max 1 ⌈((500 : Nat) : ℚ) * GrowRate⌉₊ = 810 ∧
    (SpawnOk (Pool.mk 0 PoolStamp_Origin (List.replicate 500 (blankRecord Nat))
      500 []) 7).1.mCapacity ≠ max 1 ⌈((500 : Nat) : ℚ) * GrowRate⌉₊ := by
  have hlog : Nat.log2 212074500 = 27 := by
    rw [Nat.log2_eq_log_two]
    exact Nat.log_eq_of_pow_le_of_lt_pow (by norm_num) (by norm_num)
  have hrnd : rnd24 212074500 = 212074496 := by
    unfold rnd24
    rw [if_neg (by norm_num), hlog]
    norm_num
  have hcap : growCapacity 500 = 809 := by
    unfold growCapacity
    rw [if_neg (by norm_num)]
    have h500 : rnd24 500 = 500 := by decide
    rw [h500, show (500 : Nat) * 424149 = 212074500 by norm_num, hrnd]
  have hceil : max 1 ⌈((500 : Nat) : ℚ) * GrowRate⌉₊ = 810 := by
    rw [ceil_mul_growRate 500]
    decide
  refine ⟨by decide, ?_, hceil, ?_⟩
  · rw [SpawnOk_growth_eq _ 7 rfl, spawnAt_capacity, growPool_capacity]
    exact hcap
  · rw [SpawnOk_growth_eq _ 7 rfl, spawnAt_capacity, growPool_capacity,
      hcap, hceil]
    decide

/-- C5 (amended): growth preserves all live elements and handle validity.
For a well-formed pool whose free queue is empty, a `Spawn` call grows the
pool: the new capacity is the strictly larger value computed by the source's
single-precision `ceil(float(oldCapacity) * 1.618f)` (at some capacities,
such as 500, one below the exact `max(1, ceil(oldCapacity * growthFactor))`
the claim states); the spawned element is placed at index `oldCapacity`, the
first of the newly enqueued indices `[oldCapacity, newCapacity)`, leaving
the rest on the free queue; and every handle valid before the call is still
valid afterwards with `At` returning the same element. -/
theorem C5_growth_preserves_live_elements (p : Pool T) (t : T)
    (hwf : WF p) (hempty : p.mFreeQueue = []) :
    (SpawnOk p t).1.mCapacity = growCapacity p.mCapacity ∧
    p.mCapacity < (SpawnOk p t).1.mCapacity ∧
    (SpawnOk p t).2.mIndex = p.mCapacity ∧
    (SpawnOk p t).1.mFreeQueue =
      List.range' (p.mCapacity + 1) (growCapacity p.mCapacity - p.mCapacity - 1) ∧
    ∀ h : PoolHandle, IsValid p h = some true →
      IsValid (SpawnOk p t).1 h = some true ∧ At (SpawnOk p t).1 h = At p h := by
  have hG := SpawnOk_growth_eq p t hempty
  have hqueue := growPool_queue_of_empty p hempty
  refine ⟨?_, ?_, ?_, ?_, ?_⟩
  · rw [hG]
    rfl
  · rw [hG]
    show p.mCapacity < growCapacity p.mCapacity
    exact growCapacity_lt p.mCapacity
  · rw [hG]
    show (growPool p).mFreeQueue.headD 0 = p.mCapacity
    rw [hqueue]
    rfl
  · rw [hG]
    show (growPool p).mFreeQueue.tail =
      List.range' (p.mCapacity + 1) (growCapacity p.mCapacity - p.mCapacity - 1)
    rw [hqueue]
    rfl
  · intro h hvalid
    rw [isValid_iff p h hwf.1] at hvalid
    obtain ⟨hidx, hslot⟩ := hvalid
    have hrec := SpawnOk_growth_records_lo p t hwf hempty h.mIndex hidx
    constructor
    · rw [isValid_iff _ _ (WF_SpawnOk p t hwf).1]
      refine ⟨?_, ?_⟩
      · rw [hG]
        show h.mIndex < growCapacity p.mCapacity
        have := growCapacity_lt p.mCapacity
        omega
      · show ((SpawnOk p t).1.mRecords[h.mIndex]?).map (·.mStamp) = some h.mStamp
        rw [hrec]
        exact hslot
    · unfold At
      rw [hrec]

/-- C5 (witness): the growth-preservation theorem applied to a concrete full
capacity-1 pool holding the value 10 at slot 0 under handle `(0, 2)`. -/
theorem C5_witness :
    WF ((SpawnOk (mkPool Nat 1) 10).1) ∧
    ((SpawnOk (mkPool Nat 1) 10).1).mFreeQueue = [] ∧
    (SpawnOk ((SpawnOk (mkPool Nat 1) 10).1) 20).2.mIndex =
      ((SpawnOk (mkPool Nat 1) 10).1).mCapacity ∧
    IsValid (SpawnOk ((SpawnOk (mkPool Nat 1) 10).1) 20).1 ⟨0, 2⟩ = some true ∧
    At (SpawnOk ((SpawnOk (mkPool Nat 1) 10).1) 20).1 ⟨0, 2⟩ =
      At ((SpawnOk (mkPool Nat 1) 10).1) ⟨0, 2⟩ :=
  ⟨by decide, rfl,
    (C5_growth_preserves_live_elements _ 20 (by decide) rfl).2.2.1,
    ((C5_growth_preserves_live_elements _ 20 (by decide) rfl).2.2.2.2 ⟨0, 2⟩
      (by decide)).1,
    ((C5_growth_preserves_live_elements _ 20 (by decide) rfl).2.2.2.2 ⟨0, 2⟩
      (by decide)).2⟩

/-- C6: immediately after `Spawn` returns a handle, that handle is valid; and
once a non-stale `Return` (one whose handle stamp equals the slot's current
stamp, not the `Free` sentinel) has been performed on a handle, the handle is
invalid and stays invalid under every further sequence of `Spawn`/`Return`
calls, because stamps are issued strictly increasingly and never reused. -/
theorem C6_spawn_valid_and_return_permanently_invalid (p : Pool T)
    (hwf : WF p) :
    (∀ t : T, IsValid (SpawnOk p t).1 (SpawnOk p t).2 = some true) ∧
    (∀ h : PoolHandle, slotStamp p h.mIndex = some h.mStamp →
      h.mStamp ≠ PoolStamp_Free →
      ∀ ops : List (Op T), IsValid (run (Return p h) ops) h = some false) := by
  constructor
  · intro t
    exact isValid_SpawnOk p t hwf
  · intro h hmatch hnf ops
    have h1 := WF_Return p h hwf
    have h2 := avoids_after_live_Return p h hwf hmatch hnf
    exact avoids_isValid _ _ (WF_run _ ops h1) (avoids_run _ _ ops h1 h2)

/-- C6 (witness): the theorem applied to the concrete capacity-1 pool holding
handle `(0, 2)`: the next spawn is valid immediately, and after returning
`(0, 2)` the handle stays invalid even after a further spawn that reuses
index 0. -/
theorem C6_witness :
    WF ((SpawnOk (mkPool Nat 1) 42).1) ∧
    slotStamp ((SpawnOk (mkPool Nat 1) 42).1)
      (PoolHandle.mk 0 2).mIndex = some (PoolHandle.mk 0 2).mStamp ∧
    IsValid (SpawnOk ((SpawnOk (mkPool Nat 1) 42).1) 5).1
      (SpawnOk ((SpawnOk (mkPool Nat 1) 42).1) 5).2 = some true ∧
    IsValid (run (Return ((SpawnOk (mkPool Nat 1) 42).1) ⟨0, 2⟩) [.spawn 7])
      ⟨0, 2⟩ = some false :=
  ⟨by decide, by decide,
    (C6_spawn_valid_and_return_permanently_invalid _ (by decide)).1 5,
    (C6_spawn_valid_and_return_permanently_invalid _ (by decide)).2 ⟨0, 2⟩
      (by decide) (by decide) [.spawn 7]⟩

/-- C7: the claim states that `GetSpawnedCount` always equals the number of
`Spawn` calls minus the number of successful, non-stale `Return` calls.
Because the code's `Return` destructs whenever the slot is merely not `Free`
(ignoring the handle's generation), a stale `Return` on a reused slot also
decrements the count: after `Spawn`, non-stale `Return`, `Spawn`, stale
`Return` of the old handle, there were 2 spawns and 1 successful non-stale
return, so the claim predicts a count of 1, but the code's count is 0. -/
theorem C7_spawned_count_diverges_on_stale_return :
    GetSpawnedCount
      (run (mkPool Nat 1) [.spawn 10, .ret ⟨0, 2⟩, .spawn 20, .ret ⟨0, 2⟩]) = 0 ∧
    countSpawns ([.spawn 10, .ret ⟨0, 2⟩, .spawn 20, .ret ⟨0, 2⟩] : List (Op Nat)) = 2 ∧
    countNonStaleReturns (mkPool Nat 1)
      [.spawn 10, .ret ⟨0, 2⟩, .spawn 20, .ret ⟨0, 2⟩] = 1 := by
  decide

/-- C8 (counterexample): the claim states that `IsValid` returns `false` for
a handle whose index is at least the capacity.  The code instead asserts
`handle.mIndex < mCapacity` and reads the record array unconditionally, so an
out-of-range handle fails the assertion (or reads out of bounds) rather than
returning `false`: on a capacity-1 pool and the handle `(5, 2)` the model
yields `none` (no boolean result), not `some false`. -/
theorem C8_counterexample_out_of_range_index :
    IsValid (mkPool Nat 1) ⟨5, 2⟩ = none ∧
    IsValid (mkPool Nat 1) ⟨5, 2⟩ ≠ some false := by
  decide

/-- C8 (amended): under the precondition `handle.mIndex < capacity` asserted
by the source, `IsValid` returns `true` exactly when the slot's current
generation equals the handle's generation; out-of-range handles are a
precondition violation (assertion failure / out-of-bounds read), not a
`false` result. -/
theorem C8_amended_isValid_characterization (p : Pool T) (h : PoolHandle)
    (hlen : p.mRecords.length = p.mCapacity) :
    IsValid p h = some true ↔
      h.mIndex < p.mCapacity ∧ slotStamp p h.mIndex = some h.mStamp :=
  isValid_iff p h hlen

/-- C8 (witness): the amended characterization applied to a fresh capacity-1
pool and the handle `(0, 0)`, whose stamp matches slot 0's
`PoolStamp_NotConstructed` stamp. -/
theorem C8_amended_witness :
    (mkPool Nat 1).mRecords.length = (mkPool Nat 1).mCapacity ∧
    IsValid (mkPool Nat 1) ⟨0, 0⟩ = some true :=
  ⟨rfl,
    (C8_amended_isValid_characterization (mkPool Nat 1) ⟨0, 0⟩ rfl).mpr
      (by decide)⟩

/-- C9: after `Clear()` the spawned count and the capacity are 0, the free
list is empty, the generation counter is reset to `PoolStamp_Origin`, the
record storage is released (all live elements destructed with it), and no
handle is reported valid. -/
theorem C9_clear_resets_everything (p : Pool T) :
    GetSpawnedCount (Clear p) = 0 ∧
    GetCapacity (Clear p) = 0 ∧
    (Clear p).mFreeQueue = [] ∧
    (Clear p).mGlobalStamp = PoolStamp_Origin ∧
    (Clear p).mRecords = ([] : List (PoolRecord T)) ∧
    ∀ h : PoolHandle, IsValid (Clear p) h ≠ some true := by
  refine ⟨rfl, rfl, rfl, rfl, rfl, ?_⟩
  intro h hcon
  simp [IsValid, Clear] at hcon

/-- C10: the default-constructed handle carries index 0 and the `Free`
sentinel as its stamp, so whenever the capacity is positive and slot 0's
current stamp is the `Free` sentinel (for example after `Spawn` at index 0
followed by `Return`), `IsValid` reports the designated invalid handle as
valid. -/
theorem C10_default_handle_valid_on_free_slot0 (p : Pool T)
    (hlen : p.mRecords.length = p.mCapacity) (hcap : 0 < p.mCapacity)
    (hfree : slotStamp p 0 = some PoolStamp_Free) :
    IsValid p defaultHandle = some true := by
  rw [isValid_iff p defaultHandle hlen]
  exact ⟨hcap, hfree⟩

/-- C10 (witness): the concrete scenario `Spawn` (handle `(0, 2)`) then
`Return`, after which slot 0 is `Free` and the default handle is reported
valid. -/
theorem C10_witness :
    (run (mkPool Nat 1) [.spawn 5, .ret ⟨0, 2⟩]).mRecords.length =
      (run (mkPool Nat 1) [.spawn 5, .ret ⟨0, 2⟩]).mCapacity ∧
    0 < (run (mkPool Nat 1) [.spawn 5, .ret ⟨0, 2⟩]).mCapacity ∧
    slotStamp (run (mkPool Nat 1) [.spawn 5, .ret ⟨0, 2⟩]) 0 =
      some PoolStamp_Free ∧
    IsValid (run (mkPool Nat 1) [.spawn 5, .ret ⟨0, 2⟩]) defaultHandle =
      some true :=
  ⟨rfl, by decide, by decide,
    C10_default_handle_valid_on_free_slot0 _ rfl (by decide) (by decide)⟩

end SmartPool
